import Mathlib

/-
Verification development for the summarization core of `felipepimentel/aibook`
(Rust). Text is embedded as `List Char` (a Rust `&str` is a sequence of
characters); the string operations used by the source (`split`, `trim`,
`starts_with`, `trim_start_matches`, regex `replace_all` on a literal-escaped
pattern) are given executable structural models below. Remote calls made
through `llm::LLMClient::send_request` are abstracted as an oracle function
passed explicitly, so that pure control flow of the orchestrator and the
summarizer can be proved and evaluated.
-/

namespace Aibook

/-- Character-list model of a Rust string slice. -/
abbrev Str := List Char

/-- The character list of a Lean string literal. -/
def lit (s : String) : Str := s.data

/-- Rust `str::starts_with` test: is the first list a prefix of the second. -/
def isPrefixC : Str → Str → Bool
  | [], _ => true
  | _ :: _, [] => false
  | p :: ps, c :: cs => p == c && isPrefixC ps cs

/-- Fuel-driven worker for `splitOnS`; the fuel strictly exceeds the number of
steps whenever the separator is non-empty, so the fuel-exhaustion arm is never
reached by `splitOnS`. -/
def splitOnGo (sep : Str) : Nat → Str → Str → List Str
  | 0, s, acc => [acc.reverse ++ s]
  | _ + 1, [], acc => [acc.reverse]
  | fuel + 1, c :: rest, acc =>
    if isPrefixC sep (c :: rest) then
      acc.reverse :: splitOnGo sep fuel (List.drop sep.length (c :: rest)) []
    else
      splitOnGo sep fuel rest (c :: acc)

/-- Rust `str::split(sep)` on a non-empty literal separator: the pieces between
non-overlapping occurrences of `sep`, scanned left to right, keeping empty
pieces. -/
def splitOnS (sep s : Str) : List Str :=
  if sep.isEmpty then [s] else splitOnGo sep (s.length + 1) s []

/-- Rust `str::trim`: strip whitespace from both ends. -/
def trimS (s : Str) : Str :=
  ((s.dropWhile Char.isWhitespace).reverse.dropWhile Char.isWhitespace).reverse

/-- Fuel-driven worker for `trimStartMatchesS`. -/
def trimStartGo (pat : Str) : Nat → Str → Str
  | 0, s => s
  | fuel + 1, s =>
    if pat.isEmpty then s
    else if isPrefixC pat s then trimStartGo pat fuel (s.drop pat.length)
    else s

/-- Rust `str::trim_start_matches(pat)`: repeatedly remove the pattern from the
front while it is a prefix. -/
def trimStartMatchesS (s pat : Str) : Str := trimStartGo pat (s.length + 1) s

/-- Rust `Vec::join(sep)` / `[T]::join`. -/
def intercalateS (sep : Str) : List Str → Str
  | [] => []
  | [x] => x
  | x :: y :: rest => x ++ sep ++ intercalateS sep (y :: rest)

/-- Fuel-driven worker for `replaceAllC`. -/
def replaceAllGo (pat rep : Str) : Nat → Str → Str
  | 0, s => s
  | _ + 1, [] => []
  | fuel + 1, c :: rest =>
    if pat.isEmpty then c :: rest
    else if isPrefixC pat (c :: rest) then
      rep ++ replaceAllGo pat rep fuel (List.drop pat.length (c :: rest))
    else
      c :: replaceAllGo pat rep fuel rest

/-- `Regex::new(&regex::escape(pat)).replace_all(s, rep)` on a non-empty
pattern: replace every non-overlapping occurrence of the literal pattern,
scanning left to right. The empty-pattern regex is not modelled (the source
only ever builds the pattern from a keyword). -/
def replaceAllC (s pat rep : Str) : Str := replaceAllGo pat rep (s.length + 1) s

/-- Decimal rendering of a number, for Rust `format!` of a `usize`. -/
def natStr (n : Nat) : Str := Nat.toDigits 10 n

/-! ## output.rs -/

/-- `output::highlight_keywords` (src/output.rs:4-13): for each keyword in
order, replace every occurrence of the keyword in the accumulated summary by
the keyword wrapped in double asterisks. -/
def highlight_keywords (summary : Str) (keywords : List Str) : Str :=
  keywords.foldl (fun acc kw => replaceAllC acc kw (lit "**" ++ kw ++ lit "**")) summary

/-- `output::format_section` (src/output.rs:16-22). -/
def format_section (title content fmt : Str) : Str :=
  if fmt = lit "markdown" then lit "## " ++ title ++ lit "\n\n" ++ content ++ lit "\n"
  else if fmt = lit "html" then lit "<h2>" ++ title ++ lit "</h2>\n\n" ++ content ++ lit "\n"
  else content

/-- `output::format_title` (src/output.rs:25-31). -/
def format_title (title fmt : Str) : Str :=
  if fmt = lit "markdown" then lit "# " ++ title ++ lit "\n\n"
  else if fmt = lit "html" then lit "<h1>" ++ title ++ lit "</h1>\n\n"
  else title

/-- `output::format_glossary` (src/output.rs:34-53). -/
def format_glossary (glossary : List Str) (fmt : Str) : Str :=
  if glossary.isEmpty then []
  else if fmt = lit "markdown" then
    lit "# Glossary\n\n" ++ intercalateS (lit "\n\n") glossary ++ lit "\n"
  else if fmt = lit "html" then
    lit "<h1>Glossary</h1>\n\n"
      ++ intercalateS (lit "\n") (glossary.map (fun e => lit "<p>" ++ e ++ lit "</p>"))
      ++ lit "\n"
  else intercalateS (lit "\n\n") glossary

/-- `output::format_references` (src/output.rs:56-75). -/
def format_references (references : List Str) (fmt : Str) : Str :=
  if references.isEmpty then []
  else if fmt = lit "markdown" then
    lit "# References\n\n" ++ intercalateS (lit "\n") references ++ lit "\n"
  else if fmt = lit "html" then
    lit "<h1>References</h1>\n\n"
      ++ intercalateS (lit "\n") (references.map (fun e => lit "<p>" ++ e ++ lit "</p>"))
      ++ lit "\n"
  else intercalateS (lit "\n") references

/-! ## summarizer.rs — chunker -/

/-- Abstract model of the `tiktoken_rs::cl100k_base` tokenizer used at
src/summarizer.rs:73-74,81: `encode` encodes a text into token ids and each
token id denotes a fixed character sequence `tokChars` (BPE tokens map to fixed
byte strings), so decoding a token list concatenates the per-token strings. -/
structure Tokenizer where
  encode : Str → List Nat
  tokChars : Nat → Str

/-- `bpe.decode` of a token list: concatenation of the per-token strings. -/
def Tokenizer.decode (tk : Tokenizer) (ts : List Nat) : Str :=
  (ts.map tk.tokChars).flatten

/-- One update of the loop index of `split_text_by_tokens`
(src/summarizer.rs:78-83): `end = min(start + max_tokens, tokens.len())` and
then `start = end`. -/
def splitLoopStep (numTokens maxTokens start : Nat) : Nat :=
  min (start + maxTokens) numTokens

/-- The `while start < tokens.len()` loop of `split_text_by_tokens`
(src/summarizer.rs:78-84), phrased on the remaining token list: each iteration
takes `tokens[start..min(start+max_tokens, len)]` as one section and advances
`start` past it, i.e. takes `max_tokens` tokens and drops them. The fuel bounds
the iteration count; `tokens.length` fuel is exact whenever `max_tokens >= 1`
(the loop advances by at least one token per iteration; see the termination
theorem below). -/
def chunksAux : Nat → Nat → List Nat → List (List Nat)
  | 0, _, _ => []
  | _ + 1, _, [] => []
  | fuel + 1, maxTokens, t :: ts =>
    (t :: ts).take maxTokens :: chunksAux fuel maxTokens ((t :: ts).drop maxTokens)

/-- `summarizer::split_text_by_tokens` (src/summarizer.rs:72-87): encode the
text, cut the token list into consecutive sections of at most `maxTokens`
tokens, and decode each section. -/
def split_text_by_tokens (tk : Tokenizer) (text : Str) (maxTokens : Nat) : List Str :=
  let tokens := tk.encode text
  (chunksAux tokens.length maxTokens tokens).map tk.decode

/-- A concrete instance of the tokenizer interface for evaluation: each
character is one token. It satisfies the encode/decode round trip on every
text made of valid characters. -/
def charTok : Tokenizer :=
  ⟨fun s => s.map Char.toNat, fun n => [Char.ofNat n]⟩

/-! ## summarizer.rs — response parser -/

/-- The quintuple returned by `summarizer::parse_response`
(src/summarizer.rs:89-149), with the source's field names. -/
structure ParsedResponse where
  summary : Str
  keywords : List Str
  glossary : List Str
  references : List Str
  additional_resources : List Str
deriving DecidableEq

/-- One iteration of the `for section in sections` loop of `parse_response`
(src/summarizer.rs:100-140), in the source's branch order. Note that in the
references branch only the longer label is stripped, exactly as in the source,
and that the interior `summary` accumulator is trimmed only at the very end. -/
def parseStep (acc : ParsedResponse) (s : Str) : ParsedResponse :=
  if isPrefixC (lit "Keywords:") s then
    { acc with keywords :=
        acc.keywords ++ (splitOnS [','] (trimStartMatchesS s (lit "Keywords:"))).map trimS }
  else if isPrefixC (lit "Glossary:") s then
    { acc with glossary := acc.glossary ++ [trimS (trimStartMatchesS s (lit "Glossary:"))] }
  else if isPrefixC (lit "Citations and References:") s || isPrefixC (lit "References:") s then
    { acc with references :=
        acc.references ++ [trimS (trimStartMatchesS s (lit "Citations and References:"))] }
  else if isPrefixC (lit "Additional Resources:") s then
    { acc with additional_resources :=
        acc.additional_resources ++ [trimS (trimStartMatchesS s (lit "Additional Resources:"))] }
  else if isPrefixC (lit "Dedication") s || isPrefixC (lit "Foreword") s
      || isPrefixC (lit "About the Author") s || isPrefixC (lit "Author Biography") s
      || isPrefixC (lit "Preface") s || isPrefixC (lit "Acknowledgments") s then
    acc
  else
    { acc with summary := acc.summary ++ s ++ lit "\n" }

/-- `summarizer::parse_response` (src/summarizer.rs:89-149): split the reply at
blank lines, route each block by its leading label, drop administrative
blocks, append unlabeled blocks to the narrative summary, and trim the
accumulated summary at the end. -/
def parse_response (content : Str) : ParsedResponse :=
  let r := (splitOnS (lit "\n\n") content).foldl parseStep ⟨[], [], [], [], []⟩
  { r with summary := trimS r.summary }

/-! ## summarizer.rs — remote calls -/

/-- A chat turn as in `llm::ChatMessage` (src/llm.rs:102-106). -/
structure ChatMessage where
  role : Str
  content : Str

/-- The plan prompt built by `generate_summary_plan` (src/summarizer.rs:28-31):
the fixed instruction text with the output language and the newline-joined
table of contents spliced in. -/
def planPrompt (outputLanguage : Str) (toc : List Str) : Str :=
  lit "You are an expert at creating detailed and content-rich summary plans for e-books. Based on the following table of contents, create a comprehensive summary plan that focuses on the main content and key learnings of each chapter. Exclude any sections like dedications, forewords, author biographies, or any meta-information. Include sections for Citations and References, Additional Resources, and any other content that would enrich the summary. Use a direct, note-taking style in "
    ++ outputLanguage ++ lit ".\n\nTable of Contents:\n" ++ intercalateS (lit "\n") toc

/-- `Summarizer::generate_summary_plan` (src/summarizer.rs:26-39): build the
plan prompt, send it as a single user message through the completion client
(abstracted as `send`), and return the client's reply unchanged. The source
performs no check on the reply. -/
def generate_summary_plan {ε : Type} (send : List ChatMessage → Except ε Str)
    (outputLanguage : Str) (toc : List Str) : Except ε Str :=
  send [⟨lit "user", planPrompt outputLanguage toc⟩]

/-- `Summarizer::summarize_with_plan` (src/summarizer.rs:41-68): one completion
call for the section text and plan fragment (prompt construction and transport
abstracted into `send`), then `parse_response` on the reply. -/
def summarize_with_plan {ε : Type} (send : Str → Str → Except ε Str)
    (text plan : Str) : Except ε ParsedResponse :=
  (send text plan).map parse_response

/-! ## main.rs — orchestrator -/

/-- The plan splitting of src/main.rs:125-129:
`plan.split("##").skip(1).map(|s| format!("##{}", s.trim())).collect()`. -/
def plan_sections (plan : Str) : List Str :=
  ((splitOnS (lit "##") plan).drop 1).map (fun s => lit "##" ++ trimS s)

/-- The per-chapter plan fragment of src/main.rs:153:
`plan_sections.get(index).cloned().unwrap_or_default()`. -/
def chapter_plan (plan : Str) (index : Nat) : Str :=
  (plan_sections plan).getD index []

/-- The `for section in sections` loop of the chapter worker
(src/main.rs:165-180): one `summarize_with_plan` call per section; on success
the keyword-highlighted summary is pushed and glossary and references are
extended, on failure the error is logged and the section is skipped. The
oracle `send` is indexed by the number of completion calls made so far in this
worker, and the first component of the result is the updated call count, so
the call count per section is part of the model. The source destructures the
call's result as `(summary, keywords, glossary, references)`, leaving the
parsed additional resources unused. -/
def sectionLoop {ε : Type} (send : Nat → Str → Str → Except ε Str) (chapterPlan : Str) :
    Nat → List Str → Nat × List Str × List Str × List Str
  | k, [] => (k, [], [], [])
  | k, s :: rest =>
    match summarize_with_plan (send k) s chapterPlan with
    | .ok p =>
      let r := sectionLoop send chapterPlan (k + 1) rest
      (r.1, highlight_keywords p.summary p.keywords :: r.2.1,
        p.glossary ++ r.2.2.1, p.references ++ r.2.2.2)
    | .error _ =>
      let r := sectionLoop send chapterPlan (k + 1) rest
      (r.1, r.2.1, r.2.2.1, r.2.2.2)

/-- The body of one spawned chapter task (src/main.rs:145-188): resolve the
chapter title from the table of contents (with the `Chapter {n}` fallback),
pick the chapter's plan fragment, chunk the chapter at 2000 tokens, run the
section loop, join the per-section summaries with blank lines, and format the
chapter section. Returns `(section_content, chapter_glossary,
chapter_references)` as the task does at src/main.rs:187. -/
def chapterTask {ε : Type} (tk : Tokenizer) (send : Nat → Str → Str → Except ε Str)
    (toc : List Str) (fmt plan : Str) (index : Nat) (chapter : Str) :
    Str × List Str × List Str :=
  let chapterTitle := toc.getD index (lit "Chapter " ++ natStr (index + 1))
  let chapterPlan := chapter_plan plan index
  let sections := split_text_by_tokens tk chapter 2000
  let r := sectionLoop send chapterPlan 0 sections
  let combined := intercalateS (lit "\n\n") r.2.1
  (format_section chapterTitle combined fmt, r.2.2.1, r.2.2.2)

/-- The task list spawned by src/main.rs:145-191: one chapter task per chapter,
in chapter-index order. -/
def runChapters {ε : Type} (tk : Tokenizer) (send : Nat → Str → Str → Except ε Str)
    (toc : List Str) (fmt plan : Str) (chapters : List Str) :
    List (Str × List Str × List Str) :=
  chapters.enum.map (fun p => chapterTask tk send toc fmt plan p.1 p.2)

/-- Final assembly (src/main.rs:199-225): start from the formatted title,
append each task's section content followed by a newline and collect glossary
and reference entries in task order, then append the glossary and references
blocks when non-empty. -/
def assemble_final (fmt : Str) (results : List (Str × List Str × List Str)) : Str :=
  let acc := results.foldl
    (fun acc r => (acc.1 ++ r.1 ++ lit "\n", acc.2.1 ++ r.2.1, acc.2.2 ++ r.2.2))
    (format_title (lit "E-book Summary") fmt, [], [])
  let withGlossary := if acc.2.1.isEmpty then acc.1 else acc.1 ++ format_glossary acc.2.1 fmt
  if acc.2.2.isEmpty then withGlossary else withGlossary ++ format_references acc.2.2 fmt

/-- The per-document pipeline from plan splitting to the final summary string
(src/main.rs:125-225), with reading, plan generation and file writing
abstracted away: spawn the chapter tasks in index order and assemble their
results in that same order. -/
def run_pipeline {ε : Type} (tk : Tokenizer) (send : Nat → Str → Str → Except ε Str)
    (toc : List Str) (fmt plan : Str) (chapters : List Str) : Str :=
  assemble_final fmt (runChapters tk send toc fmt plan chapters)

/-! ## main.rs — completion-order model for join_all

`tokio::spawn` is called once per chapter in index order (src/main.rs:161,190)
and `futures::future::join_all(tasks)` (src/main.rs:194) yields the tasks'
values in the order the handles appear in `tasks`, whatever order the tasks
finish in. A finished-task log is modelled as the list of `(task index, task
value)` pairs in completion order, and awaiting the handles in spawn order
looks each task's value up in that log. -/

/-- The completion log of a task pool: tasks finish in the order given by
`schedule`, each contributing its own value. -/
def completionLog {α : Type} (task : Nat → α) (schedule : List Nat) : List (Nat × α) :=
  schedule.map (fun i => (i, task i))

/-- `join_all` over handles `0..n` in spawn order: the result slot `i` holds
task `i`'s value as found in the completion log, regardless of the log's
order. -/
def awaitAll {α : Type} (log : List (Nat × α)) (n : Nat) : List (Option α) :=
  (List.range n).map (fun i => (log.find? (fun p => p.1 == i)).map (fun p => p.2))

/-! ## Checkpointed resumption (spec §3, §4.5, §4.6) -/

/-- Modelled from the spec: the persisted `ProcessingState` of §3 and §6 of
the spec (fields `images_extracted`, `text_extracted`, `chapters_processed`,
`epub_created`). No checkpoint-store or resumption code is present under
src/ (the spec notes the repository's duplicated historical revisions); the
record is taken verbatim from the spec's field list. -/
structure ProcessingState where
  images_extracted : Bool
  text_extracted : Bool
  chapters_processed : List Nat
  epub_created : Bool
deriving DecidableEq

/-- Modelled from the spec: the `CHAPTERS_PROCESSED` stage of the orchestrator
state machine (spec §4.6), absent from src/. For each chapter index in order:
if the index is already in `chapters_processed`, skip the worker and reuse the
chapter's previously recorded result `stored i`; otherwise run the worker and
add the index to `chapters_processed` (the save after each flip is implicit in
the threaded state). Returns the merged results in chapter-index order, the
indices actually worked on in this run, and the final state. -/
def resumeChapterPhase {α : Type} (worker stored : Nat → α)
    (st : ProcessingState) (n : Nat) : List α × List Nat × ProcessingState :=
  (List.range n).foldl
    (fun acc i =>
      if acc.2.2.chapters_processed.contains i then
        (acc.1 ++ [stored i], acc.2.1, acc.2.2)
      else
        (acc.1 ++ [worker i], acc.2.1 ++ [i],
          { acc.2.2 with chapters_processed := acc.2.2.chapters_processed ++ [i] }))
    ([], [], st)

/-! ## Concrete oracles for evaluation -/

/-- A completion client stub whose every call fails (as a transport or
decoding error surfaced by `send_request`, src/llm.rs:52-71). -/
def sendFail : Nat → Str → Str → Except Unit Str := fun _ _ _ => Except.error ()

/-- A mock completion client returning the fixed summary `S1` for the first
chapter's text and `S2` otherwise. -/
def mockSend : Nat → Str → Str → Except Unit Str :=
  fun _ sec _ => if sec = lit "c1" then Except.ok (lit "S1") else Except.ok (lit "S2")

/-- A completion client stub that replies with the blank string. -/
def blankSend : List ChatMessage → Except Unit Str := fun _ => Except.ok []

/-! ## Helper lemmas -/

theorem chunksAux_nil (fuel maxTokens : Nat) : chunksAux fuel maxTokens [] = [] := by
  cases fuel <;> rfl

theorem chunksAux_flatten (maxTokens : Nat) (hmax : 1 ≤ maxTokens) :
    ∀ (fuel : Nat) (ts : List Nat), ts.length ≤ fuel →
      (chunksAux fuel maxTokens ts).flatten = ts := by
  intro fuel
  induction fuel with
  | zero =>
    intro ts h
    have hts : ts = [] := List.eq_nil_of_length_eq_zero (Nat.le_zero.mp h)
    subst hts
    rfl
  | succ fuel ih =>
    intro ts h
    match ts with
    | [] => simp [chunksAux]
    | t :: r =>
      simp only [chunksAux, List.flatten_cons]
      rw [ih ((t :: r).drop maxTokens)
        (by simp only [List.length_drop, List.length_cons] at *; omega)]
      exact List.take_append_drop maxTokens (t :: r)

theorem chunksAux_fuel_eq (maxTokens : Nat) (hmax : 1 ≤ maxTokens) :
    ∀ (f g : Nat) (ts : List Nat), ts.length ≤ f → ts.length ≤ g →
      chunksAux f maxTokens ts = chunksAux g maxTokens ts := by
  intro f
  induction f with
  | zero =>
    intro g ts hf hg
    have hts : ts = [] := List.eq_nil_of_length_eq_zero (Nat.le_zero.mp hf)
    subst hts
    rw [chunksAux_nil, chunksAux_nil]
  | succ f ih =>
    intro g ts hf hg
    match ts, g with
    | [], g => rw [chunksAux_nil, chunksAux_nil]
    | t :: r, 0 => simp at hg
    | t :: r, g + 1 =>
      simp only [chunksAux]
      congr 1
      exact ih g ((t :: r).drop maxTokens)
        (by simp only [List.length_drop, List.length_cons] at *; omega)
        (by simp only [List.length_drop, List.length_cons] at *; omega)

theorem chunksAux_single (ts : List Nat) (maxTokens : Nat) (hne : ts ≠ [])
    (hle : ts.length ≤ maxTokens) : chunksAux ts.length maxTokens ts = [ts] := by
  match ts, hne with
  | t :: r, _ =>
    simp only [List.length_cons, chunksAux]
    rw [List.take_of_length_le hle, List.drop_eq_nil_of_le hle, chunksAux_nil]

theorem decode_flatten (tk : Tokenizer) :
    ∀ chunks : List (List Nat),
      (chunks.map tk.decode).flatten = tk.decode chunks.flatten := by
  intro chunks
  induction chunks with
  | nil => rfl
  | cons a rest ih =>
    simp only [List.map_cons, List.flatten_cons, ih, Tokenizer.decode,
      List.map_append, List.flatten_append]

theorem splitOnGo_hash_of_whitespace :
    ∀ (fuel : Nat) (s acc : Str), (∀ c ∈ s, c.isWhitespace = true) →
      splitOnGo ['#', '#'] fuel s acc = [acc.reverse ++ s] := by
  intro fuel
  induction fuel with
  | zero => intro s acc _; rfl
  | succ fuel ih =>
    intro s acc h
    match s with
    | [] => simp [splitOnGo]
    | c :: rest =>
      have hc : c.isWhitespace = true := h c (by simp)
      have hne : (('#' : Char) == c) = false := by
        cases hch : (('#' : Char) == c) with
        | false => rfl
        | true =>
          have h1 : ('#' : Char) = c := eq_of_beq hch
          rw [← h1] at hc
          exact absurd hc (by decide)
      simp only [splitOnGo]
      rw [if_neg (by simp [isPrefixC, hne])]
      rw [ih rest (c :: acc) (fun x hx => h x (by simp [hx]))]
      simp

theorem plan_sections_blank (r : Str) (hw : ∀ c ∈ r, c.isWhitespace = true) :
    plan_sections r = [] := by
  unfold plan_sections splitOnS
  have h2 : lit "##" = ['#', '#'] := rfl
  rw [h2]
  rw [if_neg (by decide)]
  rw [splitOnGo_hash_of_whitespace (r.length + 1) r [] hw]
  rfl

theorem find?_completionLog {α : Type} (task : Nat → α) (i : Nat) :
    ∀ schedule : List Nat, i ∈ schedule →
      (completionLog task schedule).find? (fun p => p.1 == i) = some (i, task i) := by
  intro schedule
  induction schedule with
  | nil => intro h; cases h
  | cons j rest ih =>
    intro h
    simp only [completionLog, List.map_cons, List.find?]
    cases hj : (j == i) with
    | true =>
      have hji : j = i := eq_of_beq hj
      subst hji
      simp
    | false =>
      have hmem : i ∈ rest := by
        cases h with
        | head => simp at hj
        | tail _ hx => exact hx
      simpa [completionLog] using ih hmem

/-! ## Claims -/

/-- C1: on a run resumed from a persisted `ProcessingState` with
`chapters_processed = [0, 2]` out of 3 chapters, the orchestrator's chapter
phase runs the worker only for chapter index 1, reuses the recorded results of
chapters 0 and 2 untouched, and the merged output lists all three chapters in
order 0, 1, 2 (checkpointed resumption modelled from the spec, as no such code
is present under src/). -/
theorem resume_processes_only_unfinished (α : Type) (worker stored : Nat → α) :
    resumeChapterPhase worker stored ⟨true, true, [0, 2], false⟩ 3
      = ([stored 0, worker 1, stored 2], [1], ⟨true, true, [0, 2, 1], false⟩) := rfl

/-- C2 counterexample: with a completion client stub that always fails, the
chapter worker of src/main.rs:165-180 makes exactly one call for the failing
section — not `max_attempts = 3` — and then skips it (no summary is
accumulated). -/
theorem retry_budget_counterexample :
    (sectionLoop sendFail (lit "plan") 0 [lit "sec"]).1 = 1
    ∧ ¬(sectionLoop sendFail (lit "plan") 0 [lit "sec"]).1 = 3
    ∧ (sectionLoop sendFail (lit "plan") 0 [lit "sec"]).2.1 = [] := by
  decide

/-- C2 (amended): the worker makes exactly one summarization call per Section
(there is no per-Section retry loop), a failing Section is skipped, and the
Chapter still completes with exactly the successful Sections' highlighted
summaries in order. -/
theorem section_single_call_and_skip {ε : Type} (send : Nat → Str → Str → Except ε Str)
    (chapterPlan : Str) (k : Nat) (sections : List Str) :
    (sectionLoop send chapterPlan k sections).1 = k + sections.length
    ∧ (sectionLoop send chapterPlan k sections).2.1
        = (List.enumFrom k sections).filterMap (fun p =>
            match summarize_with_plan (send p.1) p.2 chapterPlan with
            | .ok r => some (highlight_keywords r.summary r.keywords)
            | .error _ => none) := by
  induction sections generalizing k with
  | nil => simp [sectionLoop]
  | cons s rest ih =>
    have h1 := (ih (k + 1)).1
    have h2 := (ih (k + 1)).2
    cases h : summarize_with_plan (send k) s chapterPlan with
    | ok p =>
      refine ⟨?_, ?_⟩
      · simp only [sectionLoop, h, h1, List.length_cons]
        omega
      · simp [sectionLoop, h, h2, List.enumFrom]
    | error e =>
      refine ⟨?_, ?_⟩
      · simp only [sectionLoop, h, h1, List.length_cons]
        omega
      · simp [sectionLoop, h, h2, List.enumFrom]

/-- C3 counterexample: parsing the delimited reply
`"About the Author\n\nBio text.\n\nReal summary."` does not give the summary
`"Real summary."`: the unlabeled block `"Bio text."` following the
administrative label is kept. -/
theorem admin_block_counterexample :
    (parse_response (lit "About the Author\n\nBio text.\n\nReal summary.")).summary
      ≠ lit "Real summary." := by
  decide

/-- C3 (amended): on that input only the labeled administrative block itself is
dropped; the unlabeled block after it is appended to the narrative summary, so
the parse yields summary `"Bio text.\nReal summary."` and nothing in the other
fields. -/
theorem admin_label_block_dropped_text_kept :
    parse_response (lit "About the Author\n\nBio text.\n\nReal summary.")
      = ⟨lit "Bio text.\nReal summary.", [], [], [], []⟩ := by
  decide

/-- C4 counterexample: for empty text (whose encoding under the concrete
tokenizer is empty, hence of length smaller than `max_units = 1`),
`split_text_by_tokens` yields the empty sequence, not one Section equal to the
input, so the claim's second conjunct fails at the empty text. -/
theorem chunker_empty_text_counterexample :
    (charTok.encode []).length < 1 ∧ split_text_by_tokens charTok [] 1 ≠ [[]] := by
  decide

/-- C4 (amended): `split` of empty text yields the empty sequence for every
`max_units`; and every text with a non-empty encoding shorter than `max_units`
yields exactly one Section equal to the input (given the tokenizer round trip
at that text). -/
theorem chunker_edge_cases (tk : Tokenizer) (text : Str) (maxTokens : Nat) :
    (tk.encode [] = [] → split_text_by_tokens tk [] maxTokens = [])
    ∧ (tk.encode text ≠ [] → (tk.encode text).length < maxTokens →
        tk.decode (tk.encode text) = text →
        split_text_by_tokens tk text maxTokens = [text]) := by
  constructor
  · intro h
    simp [split_text_by_tokens, h, chunksAux_nil]
  · intro hne hlen hrt
    simp only [split_text_by_tokens]
    rw [chunksAux_single (tk.encode text) maxTokens hne (Nat.le_of_lt hlen)]
    simp [hrt]

/-- C4 witness: the amended edge cases evaluated at the concrete tokenizer,
the empty text with `max_units = 5`, and the text `"a"` with `max_units = 2`. -/
theorem chunker_edge_cases_witness :
    split_text_by_tokens charTok [] 5 = []
    ∧ split_text_by_tokens charTok (lit "a") 2 = [lit "a"] :=
  ⟨(chunker_edge_cases charTok [] 5).1 (by decide),
   (chunker_edge_cases charTok (lit "a") 2).2 (by decide) (by decide) (by decide)⟩

/-- C5: for every text and every `max_units ≥ 1`, concatenating the decoded
Sections of `split_text_by_tokens` in order reconstructs the original text,
under the tokenizer's encode/decode round-trip guarantee at that text. -/
theorem chunker_roundtrip_reconstruction (tk : Tokenizer) (text : Str) (maxTokens : Nat)
    (hmax : 1 ≤ maxTokens) (hrt : tk.decode (tk.encode text) = text) :
    (split_text_by_tokens tk text maxTokens).flatten = text := by
  simp only [split_text_by_tokens]
  rw [decode_flatten, chunksAux_flatten maxTokens hmax _ _ (Nat.le_refl _), hrt]

/-- C5 witness: the reconstruction theorem evaluated at the concrete
tokenizer, the text `"abc"`, and `max_units = 2`. -/
theorem chunker_roundtrip_reconstruction_witness :
    (split_text_by_tokens charTok (lit "abc") 2).flatten = lit "abc" :=
  chunker_roundtrip_reconstruction charTok (lit "abc") 2 (by decide) (by decide)

/-- C6: whenever the level-2-heading split of the plan yields fewer
PlanSections than there are Chapters, every trailing chapter index receives
the empty PlanSection, and the orchestrator still produces a chapter result
for every chapter (one spawned task per chapter, none of them failing). -/
theorem plan_alignment_trailing_empty (ε : Type) (tk : Tokenizer)
    (send : Nat → Str → Str → Except ε Str) (toc : List Str) (fmt plan : Str)
    (chapters : List Str) (i : Nat)
    (_hfewer : (plan_sections plan).length < chapters.length)
    (htrail : (plan_sections plan).length ≤ i) :
    chapter_plan plan i = []
    ∧ (runChapters tk send toc fmt plan chapters).length = chapters.length := by
  constructor
  · simp [chapter_plan, List.getD, List.getElem?_eq_none htrail]
  · simp [runChapters, List.enum_length]

/-- C6 witness: a plan with headings for chapters 1 and 2 but none for chapter
3 (its split has exactly two PlanSections, which discharges the hypotheses for
three chapters and index 2): the third chapter receives the empty PlanSection
and all three chapter tasks produce results. -/
theorem plan_alignment_trailing_empty_witness :
    chapter_plan (lit "Intro\n##Chapter 1 plan\n##Chapter 2 plan") 2 = []
    ∧ (runChapters charTok sendFail [] (lit "markdown")
        (lit "Intro\n##Chapter 1 plan\n##Chapter 2 plan")
        [lit "a", lit "b", lit "c"]).length = 3 :=
  plan_alignment_trailing_empty Unit charTok sendFail [] (lit "markdown")
    (lit "Intro\n##Chapter 1 plan\n##Chapter 2 plan") [lit "a", lit "b", lit "c"] 2
    (by decide) (by decide)

/-- C7 counterexample: `generate_summary_plan` performs no blank check — when
the completion client replies with the blank string, it returns that blank
plan as a success, not an `EmptyPlanError` (no such error exists in the
source). -/
theorem empty_plan_counterexample :
    generate_summary_plan blankSend (lit "en") [] = Except.ok ([] : Str) := rfl

/-- C7 (amended): a blank or whitespace-only reply from the completion service
is passed through as a successful plan; its level-2-heading split yields no
PlanSections, so every chapter receives the empty PlanSection and the run
proceeds instead of aborting. -/
theorem blank_plan_passes_through (outputLanguage : Str) (toc : List Str) (r : Str)
    (i : Nat) (hw : ∀ c ∈ r, c.isWhitespace = true) :
    generate_summary_plan (fun _ => (Except.ok r : Except Unit Str)) outputLanguage toc
        = Except.ok r
    ∧ plan_sections r = [] ∧ chapter_plan r i = [] := by
  refine ⟨rfl, plan_sections_blank r hw, ?_⟩
  simp [chapter_plan, plan_sections_blank r hw, List.getD]

/-- C7 witness: the pass-through theorem evaluated at the whitespace-only
reply `" \n"`, language `"en"`, an empty table of contents, and chapter
index 4. -/
theorem blank_plan_passes_through_witness :
    generate_summary_plan (fun _ => (Except.ok (lit " \n") : Except Unit Str)) (lit "en") []
        = Except.ok (lit " \n")
    ∧ plan_sections (lit " \n") = [] ∧ chapter_plan (lit " \n") 4 = [] :=
  blank_plan_passes_through (lit "en") [] (lit " \n") 4 (by decide)

/-- C8: awaiting the spawned chapter handles in spawn order recovers the
chapter results in chapter-index order for every completion schedule of the
task pool; and the 2-chapter pipeline with a mock service returning `S1` and
`S2` assembles a final summary containing `S1` strictly before `S2`. -/
theorem assembly_ordered_by_index :
    (∀ (α : Type) (task : Nat → α) (n : Nat) (schedule : List Nat),
      schedule.Perm (List.range n) →
      awaitAll (completionLog task schedule) n
        = (List.range n).map (fun i => some (task i)))
    ∧ run_pipeline charTok mockSend [lit "T1", lit "T2"] (lit "markdown") (lit "")
        [lit "c1", lit "c2"]
      = lit "# E-book Summary\n\n## T1\n\n" ++ lit "S1" ++ lit "\n\n## T2\n\n"
        ++ lit "S2" ++ lit "\n\n" := by
  constructor
  · intro α task n schedule hperm
    unfold awaitAll
    refine List.map_congr_left ?_
    intro i hi
    have hmem : i ∈ schedule := hperm.mem_iff.mpr hi
    rw [find?_completionLog task i schedule hmem]
    rfl
  · decide

/-- C8 witness: the order-independence of `join_all` evaluated for two tasks
completing in reversed order. -/
theorem assembly_ordered_by_index_witness :
    awaitAll (completionLog (fun i => i * 10) [1, 0]) 2
      = (List.range 2).map (fun i => some (i * 10)) :=
  assembly_ordered_by_index.1 Nat (fun i => i * 10) 2 [1, 0] (by decide)

/-- C9: for `max_units ≥ 1` the loop index of `split_text_by_tokens` strictly
advances toward the token count on every iteration (and never overshoots it),
so the fuel equal to the token count is exact — any larger fuel computes the
same sections; the precondition is necessary, since with `max_units = 0` and a
non-empty encoding the loop index never advances. -/
theorem chunker_termination_progress :
    (∀ (tk : Tokenizer) (text : Str) (maxTokens : Nat), 1 ≤ maxTokens →
      (∀ start, start < (tk.encode text).length →
        start < splitLoopStep (tk.encode text).length maxTokens start
          ∧ splitLoopStep (tk.encode text).length maxTokens start
              ≤ (tk.encode text).length)
      ∧ ∀ fuel, (tk.encode text).length ≤ fuel →
          chunksAux fuel maxTokens (tk.encode text)
            = chunksAux (tk.encode text).length maxTokens (tk.encode text))
    ∧ ∀ (tk : Tokenizer) (text : Str) (start : Nat),
        start < (tk.encode text).length →
        splitLoopStep (tk.encode text).length 0 start = start := by
  refine ⟨fun tk text maxTokens hmax => ⟨fun start h => ?_, fun fuel hf => ?_⟩,
    fun tk text start h => ?_⟩
  · unfold splitLoopStep
    omega
  · exact chunksAux_fuel_eq maxTokens hmax fuel _ _ hf (Nat.le_refl _)
  · unfold splitLoopStep
    omega

/-- C9 witness: the progress, fuel-exactness and non-progress statements
evaluated at the concrete tokenizer and the text `"ab"`. -/
theorem chunker_termination_progress_witness :
    (0 < splitLoopStep (charTok.encode (lit "ab")).length 1 0
      ∧ splitLoopStep (charTok.encode (lit "ab")).length 1 0
          ≤ (charTok.encode (lit "ab")).length)
    ∧ chunksAux 7 1 (charTok.encode (lit "ab"))
        = chunksAux (charTok.encode (lit "ab")).length 1 (charTok.encode (lit "ab"))
    ∧ splitLoopStep (charTok.encode (lit "ab")).length 0 1 = 1 :=
  ⟨(chunker_termination_progress.1 charTok (lit "ab") 1 (by decide)).1 0 (by decide),
   (chunker_termination_progress.1 charTok (lit "ab") 1 (by decide)).2 7 (by decide),
   chunker_termination_progress.2 charTok (lit "ab") 1 (by decide)⟩

/-- C10: `highlight_keywords` with an empty keyword list returns the summary
unchanged, for every summary. -/
theorem highlight_empty_keywords_identity (summary : Str) :
    highlight_keywords summary [] = summary := rfl

end Aibook
